import Mathlib

/-!
# Command composition of `starport/pkg/chaincmd`

A shallow embedding of `chaincmd.go`: the builder `ChainCmd`, its construction
options, the flag attachment policies, the two routings and the command
methods; followed by the chain configuration of `services/chain/conf`, the
faucet constructor of `pkg/cosmosfaucet` and `owner` of `services/scaffolder`.
Go strings are Lean strings, Go
slices are lists, a pointer receiver that is mutated becomes a function on the
record, a nil error is `none`, and a `panic` is an `Except.error` carrying the
panic message.
-/

set_option autoImplicit false

namespace chaincmd

/-! ## Constants (chaincmd.go, lines 5-31) -/

def commandStart : String := "start"
def commandInit : String := "init"
def commandKeys : String := "keys"
def commandAddGenesisAccount : String := "add-genesis-account"
def commandGentx : String := "gentx"
def commandCollectGentxs : String := "collect-gentxs"
def commandValidateGenesis : String := "validate-genesis"
def commandShowNodeID : String := "show-node-id"

def optionHome : String := "--home"
def optionKeyringBackend : String := "--keyring-backend"
def optionChainID : String := "--chain-id"
def optionOutput : String := "--output"
def optionRecover : String := "--recover"
def optionAddress : String := "--address"
def optionAmount : String := "--amount"
def optionValidatorMoniker : String := "--moniker"
def optionValidatorCommissionRate : String := "--commission-rate"
def optionValidatorCommissionMaxRate : String := "--commission-max-rate"
def optionValidatorCommissionMaxChangeRate : String := "--commission-max-change-rate"
def optionValidatorMinSelfDelegation : String := "--min-self-delegation"
def optionValidatorGasPrices : String := "--gas-prices"

def constTendermint : String := "tendermint"
def constJSON : String := "json"

/-! ## Data model -/

/-- The Go type `KeyringBackend` is a named string type. -/
abbrev KeyringBackend := String

def KeyringBackendOS : KeyringBackend := "os"
def KeyringBackendFile : KeyringBackend := "file"
def KeyringBackendPass : KeyringBackend := "pass"
def KeyringBackendTest : KeyringBackend := "test"
def KeyringBackendKwallet : KeyringBackend := "kwallet"

/-- The builder `ChainCmd` (chaincmd.go, lines 43-52). -/
structure ChainCmd where
  appCmd : String
  chainID : String
  homeDir : String
  keyringBackend : KeyringBackend
  keyringPassword : String
  cliCmd : String
  cliHome : String
  nodeAddress : String
  deriving DecidableEq, Repr

namespace step

/-- Modelled from the spec: the package `pkg/cmdrunner/step` is not among the
sources.  The spec describes what `step.Exec` produces as the invocation
descriptor `{program, arguments}`: the program name and the ordered argument
list handed to the process runner. -/
structure Option where
  program : String
  arguments : List String
  deriving DecidableEq, Repr

/-- Modelled from the spec: `step.Exec(name, args...)` of the absent package
`pkg/cmdrunner/step`, the descriptor of one call of `name` with `args`. -/
def Exec (name : String) (args : List String) : Option :=
  { program := name, arguments := args }

end step

/-! ## Construction (chaincmd.go, lines 54-112) -/

/-- The Go type `Option` is `func(*ChainCmd)`; the mutation through the pointer
is the returned record. -/
abbrev Option := ChainCmd → ChainCmd

/-- `New`: the struct literal sets `appCmd` only, every other field has the
zero value; then the options are applied in order. -/
def New (appCmd : String) (options : List Option) : ChainCmd :=
  options.foldl (fun chainCmd applyOption => applyOption chainCmd)
    { appCmd := appCmd, chainID := "", homeDir := "", keyringBackend := "",
      keyringPassword := "", cliCmd := "", cliHome := "", nodeAddress := "" }

def WithHome (home : String) : Option :=
  fun c => { c with homeDir := home }

def WithChainID (chainID : String) : Option :=
  fun c => { c with chainID := chainID }

def WithKeyringBackend (keyringBackend : KeyringBackend) : Option :=
  fun c => { c with keyringBackend := keyringBackend }

def WithKeyringPassword (password : String) : Option :=
  fun c => { c with keyringPassword := password }

def WithLaunchpad (cliCmd : String) : Option :=
  fun c => { c with cliCmd := cliCmd }

def WitNodeAddress (addr : String) : Option :=
  fun c => { c with nodeAddress := addr }

/-! ## Flag attachment policies (chaincmd.go, lines 314-336) -/

def attachChainID (c : ChainCmd) (command : List String) : List String :=
  if c.chainID ≠ "" then command ++ [optionChainID, c.chainID] else command

def attachKeyringBackend (c : ChainCmd) (command : List String) : List String :=
  if c.keyringBackend ≠ "" then command ++ [optionKeyringBackend, c.keyringBackend]
  else command

def attachHome (c : ChainCmd) (command : List String) : List String :=
  if c.homeDir ≠ "" then command ++ [optionHome, c.homeDir] else command

/-- Modelled from the spec: `attachCLIHome` is called by `cliCommand` but is
defined in a file that is not among the sources.  The spec says that client
routing in split generation attaches `clientHomeDir` instead of `homeDir`, and
that attach home appends `--home <value>` iff the relevant home directory is
non-empty. -/
def attachCLIHome (c : ChainCmd) (command : List String) : List String :=
  if c.cliHome ≠ "" then command ++ [optionHome, c.cliHome] else command

/-! ## Generation dispatch and routing (chaincmd.go, lines 338-356) -/

def isStargate (c : ChainCmd) : Bool :=
  c.cliCmd == ""

def daemonCommand (c : ChainCmd) (command : List String) : step.Option :=
  step.Exec c.appCmd (attachHome c command)

def cliCommand (c : ChainCmd) (command : List String) : step.Option :=
  if isStargate c then
    step.Exec c.appCmd (attachHome c command)
  else
    step.Exec c.cliCmd (attachCLIHome c command)

/-! ## Command methods (chaincmd.go, lines 114-193 and 271-294) -/

def StartCommand (c : ChainCmd) (options : List String) : step.Option :=
  let command := [commandStart] ++ options
  daemonCommand c command

def InitCommand (c : ChainCmd) (moniker : String) : step.Option :=
  let command := [commandInit, moniker]
  let command := attachChainID c command
  daemonCommand c command

def AddKeyCommand (c : ChainCmd) (accountName : String) : step.Option :=
  let command := [commandKeys, "add", accountName, optionOutput, constJSON]
  let command := attachKeyringBackend c command
  cliCommand c command

def ImportKeyCommand (c : ChainCmd) (accountName : String) : step.Option :=
  let command := [commandKeys, "add", accountName, optionRecover]
  let command := attachKeyringBackend c command
  cliCommand c command

def ShowKeyAddressCommand (c : ChainCmd) (accountName : String) : step.Option :=
  let command := [commandKeys, "show", accountName, optionAddress]
  let command := attachKeyringBackend c command
  cliCommand c command

def ListKeysCommand (c : ChainCmd) : step.Option :=
  let command := [commandKeys, "list", optionOutput, constJSON]
  let command := attachKeyringBackend c command
  cliCommand c command

def AddGenesisAccountCommand (c : ChainCmd) (address coins : String) : step.Option :=
  let command := [commandAddGenesisAccount, address, coins]
  daemonCommand c command

def CollectGentxsCommand (c : ChainCmd) : step.Option :=
  let command := [commandCollectGentxs]
  daemonCommand c command

def ValidateGenesisCommand (c : ChainCmd) : step.Option :=
  let command := [commandValidateGenesis]
  daemonCommand c command

def ShowNodeIDCommand (c : ChainCmd) : step.Option :=
  let command := [constTendermint, commandShowNodeID]
  daemonCommand c command

/-! ## Genesis-transaction options (chaincmd.go, lines 195-269) -/

/-- The Go type `GentxOption` is `func([]string) []string`. -/
abbrev GentxOption := List String → List String

/-- Go `len` of a string is its number of bytes. -/
def GentxWithMoniker (moniker : String) : GentxOption :=
  fun command =>
    if moniker.utf8ByteSize > 0 then command ++ [optionValidatorMoniker, moniker]
    else command

def GentxWithCommissionRate (commissionRate : String) : GentxOption :=
  fun command =>
    if commissionRate.utf8ByteSize > 0 then
      command ++ [optionValidatorCommissionRate, commissionRate]
    else command

def GentxWithCommissionMaxRate (commissionMaxRate : String) : GentxOption :=
  fun command =>
    if commissionMaxRate.utf8ByteSize > 0 then
      command ++ [optionValidatorCommissionMaxRate, commissionMaxRate]
    else command

def GentxWithCommissionMaxChangeRate (commissionMaxChangeRate : String) : GentxOption :=
  fun command =>
    if commissionMaxChangeRate.utf8ByteSize > 0 then
      command ++ [optionValidatorCommissionMaxChangeRate, commissionMaxChangeRate]
    else command

def GentxWithMinSelfDelegation (minSelfDelegation : String) : GentxOption :=
  fun command =>
    if minSelfDelegation.utf8ByteSize > 0 then
      command ++ [optionValidatorMinSelfDelegation, minSelfDelegation]
    else command

def GentxWithGasPrices (gasPrices : String) : GentxOption :=
  fun command =>
    if gasPrices.utf8ByteSize > 0 then command ++ [optionValidatorGasPrices, gasPrices]
    else command

/-- Modelled from the spec: the loop that applies the options lives in
`stargateGentxCommand` and `launchpadGentxCommand`, which are defined in files
that are not among the sources.  The spec says that composition is a strict
left-to-right fold over the supplied option list. -/
def applyGentxOptions (options : List GentxOption) (command : List String) : List String :=
  options.foldl (fun command applyOption => applyOption command) command

/-- `GentxCommand` only dispatches on the generation; the two builders it calls
are defined in files that are not among the sources and are parameters here. -/
def GentxCommand
    (stargateGentxCommand launchpadGentxCommand :
      ChainCmd → String → String → List GentxOption → step.Option)
    (c : ChainCmd) (validatorName selfDelegation : String) (options : List GentxOption) :
    step.Option :=
  if isStargate c then stargateGentxCommand c validatorName selfDelegation options
  else launchpadGentxCommand c validatorName selfDelegation options

/-- The six exported option constructors, by name. -/
inductive GentxKind where
  | moniker
  | commissionRate
  | commissionMaxRate
  | commissionMaxChangeRate
  | minSelfDelegation
  | gasPrices
  deriving DecidableEq, Repr

/-- The constructor of each kind. -/
def GentxKind.build : GentxKind → String → GentxOption
  | .moniker => GentxWithMoniker
  | .commissionRate => GentxWithCommissionRate
  | .commissionMaxRate => GentxWithCommissionMaxRate
  | .commissionMaxChangeRate => GentxWithCommissionMaxChangeRate
  | .minSelfDelegation => GentxWithMinSelfDelegation
  | .gasPrices => GentxWithGasPrices

/-- The flag name the spec declares for each kind. -/
def GentxKind.flag : GentxKind → String
  | .moniker => "--moniker"
  | .commissionRate => "--commission-rate"
  | .commissionMaxRate => "--commission-max-rate"
  | .commissionMaxChangeRate => "--commission-max-change-rate"
  | .minSelfDelegation => "--min-self-delegation"
  | .gasPrices => "--gas-prices"

/-- The flag/value pairs a list of (kind, value) options contributes: one pair
for each option whose value is non-empty, in the order of the list. -/
def gentxPairs (opts : List (GentxKind × String)) : List String :=
  (opts.filter (fun o => o.2 ≠ "")).flatMap (fun o => [o.1.flag, o.2])

/-! ## Split-only operations (chaincmd.go, lines 296-312) -/

/-- `LaunchpadSetConfigCommand`: the `panic` is `Except.error` with the panic
message.  The helper `launchpadSetConfigCommand` is defined in a file that is
not among the sources and is a parameter; it may itself fail. -/
def LaunchpadSetConfigCommand
    (launchpadSetConfigCommand : ChainCmd → String → String → Except String step.Option)
    (c : ChainCmd) (name value : String) : Except String step.Option :=
  if isStargate c then
    Except.error "config command doesn't exist for Stargate"
  else
    launchpadSetConfigCommand c name value

/-- `LaunchpadRestServerCommand`: as above, with the absent helper
`launchpadRestServerCommand` as a parameter. -/
def LaunchpadRestServerCommand
    (launchpadRestServerCommand : ChainCmd → String → String → Except String step.Option)
    (c : ChainCmd) (apiAddress rpcAddress : String) : Except String step.Option :=
  if isStargate c then
    Except.error "rest-server command doesn't exist for Stargate"
  else
    launchpadRestServerCommand c apiAddress rpcAddress

/-! ## Auxiliary definitions for the statements -/

/-- The pair a policy appends for a field: nothing when the field is empty. -/
def flagPair (flag value : String) : List String :=
  if value = "" then [] else [flag, value]

/-- The three flag attachment policies of the builder, by name. -/
inductive Policy where
  | chainID
  | keyringBackend
  | home
  deriving DecidableEq, Repr

/-- The policy of each name. -/
def Policy.apply : Policy → ChainCmd → List String → List String
  | .chainID => attachChainID
  | .keyringBackend => attachKeyringBackend
  | .home => attachHome

/-- The flag/value pair a policy contributes on a builder: its flag and the
value of its field, or nothing when the field is empty. -/
def Policy.pair (c : ChainCmd) : Policy → List String
  | .chainID => flagPair "--chain-id" c.chainID
  | .keyringBackend => flagPair "--keyring-backend" c.keyringBackend
  | .home => flagPair "--home" c.homeDir

/-- The builder field a policy reads. -/
def Policy.field (c : ChainCmd) : Policy → String
  | .chainID => c.chainID
  | .keyringBackend => c.keyringBackend
  | .home => c.homeDir

/-- Number of positions of a sequence at which the token `a` is directly
followed by the token `b`. -/
def countPair (a b : String) : List String → Nat
  | x :: y :: rest => (if x = a ∧ y = b then 1 else 0) + countPair a b (y :: rest)
  | _ => 0

/-- The eight fields of the builder, by name. -/
inductive Field where
  | appCmd
  | chainID
  | homeDir
  | keyringBackend
  | keyringPassword
  | cliCmd
  | cliHome
  | nodeAddress
  deriving DecidableEq, Repr

/-- The value of a field of a builder. -/
def ChainCmd.get (c : ChainCmd) : Field → String
  | .appCmd => c.appCmd
  | .chainID => c.chainID
  | .homeDir => c.homeDir
  | .keyringBackend => c.keyringBackend
  | .keyringPassword => c.keyringPassword
  | .cliCmd => c.cliCmd
  | .cliHome => c.cliHome
  | .nodeAddress => c.nodeAddress

/-- The six exported construction options, by name. -/
inductive OptKind where
  | withHome
  | withChainID
  | withKeyringBackend
  | withKeyringPassword
  | withLaunchpad
  | witNodeAddress
  deriving DecidableEq, Repr

/-- The constructor of each option name. -/
def OptKind.build : OptKind → String → Option
  | .withHome => WithHome
  | .withChainID => WithChainID
  | .withKeyringBackend => WithKeyringBackend
  | .withKeyringPassword => WithKeyringPassword
  | .withLaunchpad => WithLaunchpad
  | .witNodeAddress => WitNodeAddress

/-- The field each option is meant to set. -/
def OptKind.field : OptKind → Field
  | .withHome => .homeDir
  | .withChainID => .chainID
  | .withKeyringBackend => .keyringBackend
  | .withKeyringPassword => .keyringPassword
  | .withLaunchpad => .cliCmd
  | .witNodeAddress => .nodeAddress

/-- The options of a list of (name, value) pairs, in order. -/
def buildOptions (opts : List (OptKind × String)) : List Option :=
  opts.map (fun o => o.1.build o.2)

/-- The values a list of (name, value) options gives to a field, in order. -/
def valuesFor (f : Field) (opts : List (OptKind × String)) : List String :=
  (opts.filter (fun o => o.1.field = f)).map (fun o => o.2)

/-- The Go zero value `ChainCmd{}`. -/
def ChainCmd.zero : ChainCmd :=
  { appCmd := "", chainID := "", homeDir := "", keyringBackend := "",
    keyringPassword := "", cliCmd := "", cliHome := "", nodeAddress := "" }

instance : Inhabited ChainCmd := ⟨ChainCmd.zero⟩

end chaincmd

/-! # Chain configuration of `starport/services/chain/conf` (config.go) -/

namespace conf

/-- A value of the Go type `interface{}` as decoded from YAML.  The functions
embedded here never look inside such a value. -/
inductive Any where
  | null
  | bool (b : Bool)
  | int (n : Int)
  | float (text : String)
  | str (s : String)
  | seq (items : List Any)
  | map (entries : List (String × Any))

/-- `Account` (config.go, lines 55-63). -/
structure Account where
  Name : String
  Coins : List String
  Mnemonic : String
  RPCAddress : String
  deriving DecidableEq, Repr

/-- `Validator` (config.go, lines 65-69). -/
structure Validator where
  Name : String
  Staked : String
  deriving DecidableEq, Repr

/-- `Init` (config.go, lines 71-84); a Go map is a list of entries, the nil map
is the empty list. -/
structure Init where
  App : List (String × Any)
  Config : List (String × Any)
  Home : String
  CLIHome : String

/-- `Servers` (config.go, lines 86-95). -/
structure Servers where
  RPCAddr : String
  P2PAddr : String
  ProfAddr : String
  GRPCAddr : String
  APIAddr : String
  FrontendAddr : String
  DevUIAddr : String
  deriving DecidableEq, Repr

/-- `Config` (config.go, lines 35-43). -/
structure Config where
  Accounts : List Account
  Validator : Validator
  Init : Init
  Genesis : List (String × Any)
  Servers : Servers

/-- The Go zero value `Account{}`. -/
def Account.zero : Account :=
  { Name := "", Coins := [], Mnemonic := "", RPCAddress := "" }

/-- The Go zero value `Config{}`. -/
def Config.zero : Config :=
  { Accounts := [],
    Validator := { Name := "", Staked := "" },
    Init := { App := [], Config := [], Home := "", CLIHome := "" },
    Genesis := [],
    Servers := { RPCAddr := "", P2PAddr := "", ProfAddr := "", GRPCAddr := "",
                 APIAddr := "", FrontendAddr := "", DevUIAddr := "" } }

/-- `DefaultConf` (config.go, lines 21-32). -/
def DefaultConf : Config :=
  { Config.zero with
    Servers := { RPCAddr := "0.0.0.0:26657", P2PAddr := "0.0.0.0:26656",
                 ProfAddr := "localhost:6060", GRPCAddr := "0.0.0.0:9090",
                 APIAddr := "0.0.0.0:1317", FrontendAddr := "localhost:8080",
                 DevUIAddr := "localhost:12345" } }

/-- The loop of `AccountByName`: the first account with the name, or the zero
value and `false` when the range is exhausted. -/
def AccountByName.loop (name : String) : List Account → Account × Bool
  | [] => (Account.zero, false)
  | acc :: rest => if acc.Name == name then (acc, true) else AccountByName.loop name rest

/-- `Config.AccountByName` (config.go, lines 45-53), with the two results as a
pair. -/
def Config.AccountByName (c : Config) (name : String) : Account × Bool :=
  AccountByName.loop name c.Accounts

/-- `ValidationError` (config.go, lines 130-133). -/
structure ValidationError where
  Message : String
  deriving DecidableEq, Repr

/-- `ValidationError.Error`: `fmt.Sprintf` with one `%s` verb. -/
def ValidationError.Error (e : ValidationError) : String :=
  "config is not valid: " ++ e.Message

/-- A Go `error` value that is not nil: a `*ValidationError`, or an error of
the YAML decoder, the merge library or the operating system, kept as its text. -/
inductive Err where
  | validation (e : ValidationError)
  | external (text : String)
  deriving DecidableEq, Repr

/-- `validate` (config.go, lines 119-128); `none` is the nil error. -/
def validate (conf : Config) : Option Err :=
  if conf.Accounts.length == 0 then
    some (.validation { Message := "at least 1 account is needed" })
  else if conf.Validator.Name == "" then
    some (.validation { Message := "validator is required" })
  else
    none

/-- `Parse` (config.go, lines 97-107).  The YAML decoder and the merge library
are external and are parameters: `decode` returns the configuration it filled
in and its error, `merge` the merged configuration and its error. -/
def Parse {Reader : Type}
    (decode : Reader → Config × Option String)
    (merge : Config → Config → Config × Option String)
    (r : Reader) : Config × Option Err :=
  match decode r with
  | (conf, some err) => (conf, some (.external err))
  | (conf, none) =>
    match merge conf DefaultConf with
    | (_, some err) => (Config.zero, some (.external err))
    | (conf, none) => (conf, validate conf)

/-- `ParseFile` (config.go, lines 109-117).  `osOpen` is `os.Open`: the open
file, or the error of the operating system. -/
def ParseFile {Reader : Type}
    (osOpen : String → Except String Reader)
    (decode : Reader → Config × Option String)
    (merge : Config → Config → Config × Option String)
    (path : String) : Config × Option Err :=
  match osOpen path with
  | .error _ => (Config.zero, none)
  | .ok file => Parse decode merge file

end conf

/-! # Faucet of `starport/pkg/cosmosfaucet` (cosmosfaucet.go) -/

namespace cosmosfaucet

def DefaultAccountName : String := "faucet"
def DefaultDenom : String := "uatom"
def DefaultCreditAmount : Nat := 10000000
def DefaultMaxCredit : Nat := 100000000

/-- `faucetOptions` (cosmosfaucet.go, lines 32-47); the two `uint64` fields
only store values below `2 ^ 64`, no arithmetic is done on them. -/
structure faucetOptions where
  accountName : String
  accountMnemonic : String
  denom : String
  creditAmount : Nat
  maxCredit : Nat
  deriving DecidableEq, Repr

/-- `Faucet` (cosmosfaucet.go, lines 24-30).  The type `chaincmdrunner.Runner`
belongs to a package that is not among the sources and is a parameter; its Go
zero value is `default`. -/
structure Faucet (Runner : Type) where
  runner : Runner
  options : faucetOptions

/-- The Go type `Option` is `func(*Faucet)`. -/
abbrev Option (Runner : Type) := Faucet Runner → Faucet Runner

def Account {Runner : Type} (name mnemonic : String) : Option Runner :=
  fun f =>
    { f with options := { f.options with accountName := name, accountMnemonic := mnemonic } }

def Denom {Runner : Type} (denom : String) : Option Runner :=
  fun f => { f with options := { f.options with denom := denom } }

def CreditAmount {Runner : Type} (credit : Nat) : Option Runner :=
  fun f => { f with options := { f.options with creditAmount := credit } }

def MaxCredit {Runner : Type} (credit : Nat) : Option Runner :=
  fun f => { f with options := { f.options with maxCredit := credit } }

set_option linter.unusedVariables false in
/-- `New` (cosmosfaucet.go, lines 81-97).  The struct literal names the field
`options` only, so `runner` and `accountMnemonic` start at their zero values;
the parameter `ccr` is not used in the body. -/
def New {Runner : Type} [Inhabited Runner] (ccr : Runner) (options : List (Option Runner)) :
    Faucet Runner :=
  options.foldl (fun f apply => apply f)
    { runner := default,
      options := { accountName := DefaultAccountName, accountMnemonic := "",
                   denom := DefaultDenom, creditAmount := DefaultCreditAmount,
                   maxCredit := DefaultMaxCredit } }

/-- The four exported faucet options, by name and arguments. -/
inductive FaucetOpt where
  | account (name mnemonic : String)
  | denom (denom : String)
  | creditAmount (credit : Nat)
  | maxCredit (credit : Nat)
  deriving DecidableEq, Repr

/-- The constructor of each faucet option. -/
def FaucetOpt.build {Runner : Type} : FaucetOpt → Option Runner
  | .account name mnemonic => Account name mnemonic
  | .denom d => Denom d
  | .creditAmount credit => CreditAmount credit
  | .maxCredit credit => MaxCredit credit

end cosmosfaucet

/-! # Scaffolder of `starport/services/scaffolder` (scaffolder.go) -/

namespace strings

/-- The pieces of a sequence of characters between the occurrences of the
separator: one piece more than there are separators, possibly empty ones. -/
def splitChars (sep : Char) : List Char → List (List Char)
  | [] => [[]]
  | c :: cs =>
    if c = sep then [] :: splitChars sep cs
    else
      match splitChars sep cs with
      | [] => [[c]]
      | piece :: pieces => (c :: piece) :: pieces

/-- Go `strings.Split(s, sep)` of the standard library, for a separator of one
ASCII character: the substrings of `s` between the separators, in order; a
string without separator, the empty string included, gives the one-element
slice holding `s`. -/
def Split (s : String) (sep : Char) : List String :=
  (splitChars sep s.data).map String.mk

end strings

namespace scaffolder

/-- `owner` (scaffolder.go, lines 36-38): the element of index 1 of the split
module path.  Indexing a slice out of range is a run-time panic of Go, here
`Except.error` with the text of that panic. -/
def owner (modulePath : String) : Except String String :=
  let parts := strings.Split modulePath '/'
  match parts[1]? with
  | some part => Except.ok part
  | none =>
    Except.error
      ("runtime error: index out of range [1] with length " ++ toString parts.length)

end scaffolder

namespace chaincmd

/-! ## Theorems -/

/-- A Go string has length zero exactly when it is the empty string. -/
theorem utf8ByteSize_pos_iff (s : String) : s.utf8ByteSize > 0 ↔ s ≠ "" := by
  rcases s with ⟨cs⟩
  cases cs with
  | nil => simp [String.utf8ByteSize, String.utf8ByteSize.go]
  | cons c cs =>
    have hc : 0 < c.utf8Size := Char.utf8Size_pos c
    have hne : (⟨c :: cs⟩ : String) ≠ "" := by
      intro h
      have := congrArg String.data h
      simp at this
    simp only [String.utf8ByteSize, String.utf8ByteSize.go, gt_iff_lt, ne_eq, hne,
      not_false_eq_true, iff_true]
    omega

theorem attachChainID_eq (c : ChainCmd) (s : List String) :
    attachChainID c s = s ++ flagPair "--chain-id" c.chainID := by
  unfold attachChainID flagPair optionChainID
  by_cases h : c.chainID = "" <;> simp [h]

theorem attachKeyringBackend_eq (c : ChainCmd) (s : List String) :
    attachKeyringBackend c s = s ++ flagPair "--keyring-backend" c.keyringBackend := by
  unfold attachKeyringBackend flagPair optionKeyringBackend
  by_cases h : c.keyringBackend = "" <;> simp [h]

theorem attachHome_eq (c : ChainCmd) (s : List String) :
    attachHome c s = s ++ flagPair "--home" c.homeDir := by
  unfold attachHome flagPair optionHome
  by_cases h : c.homeDir = "" <;> simp [h]

theorem attachCLIHome_eq (c : ChainCmd) (s : List String) :
    attachCLIHome c s = s ++ flagPair "--home" c.cliHome := by
  unfold attachCLIHome flagPair optionHome
  by_cases h : c.cliHome = "" <;> simp [h]

/-- C1: for every builder and moniker, `InitCommand` yields the program
`appCmd` with the arguments `init`, the moniker, then `--chain-id chainID` iff
`chainID` is non-empty, then `--home homeDir` iff `homeDir` is non-empty; and
the builder `appd` with home `/tmp/x` and chain ID `test-1` gives the six
tokens of the scenario for the moniker `mymoniker`. -/
theorem InitCommand_descriptor :
    (∀ (c : ChainCmd) (moniker : String),
      InitCommand c moniker =
        { program := c.appCmd,
          arguments := ["init", moniker]
            ++ (if c.chainID = "" then [] else ["--chain-id", c.chainID])
            ++ (if c.homeDir = "" then [] else ["--home", c.homeDir]) }) ∧
    InitCommand (New "appd" [WithHome "/tmp/x", WithChainID "test-1"]) "mymoniker" =
      { program := "appd",
        arguments := ["init", "mymoniker", "--chain-id", "test-1", "--home", "/tmp/x"] } := by
  constructor
  · intro c moniker
    simp only [InitCommand, daemonCommand, step.Exec, attachChainID_eq, attachHome_eq,
      flagPair, commandInit]
  · decide

/-- C2: for every builder and extra tokens, `StartCommand` yields the program
`appCmd` with the arguments `start`, the extra tokens verbatim, then
`--home homeDir` iff `homeDir` is non-empty; the result is the same whatever
`cliCmd` and `cliHome` are; and the builder `appd` without options gives
`start --pruning nothing` for the extra tokens `--pruning nothing`. -/
theorem StartCommand_descriptor :
    (∀ (c : ChainCmd) (opts : List String),
      StartCommand c opts =
        { program := c.appCmd,
          arguments := ["start"] ++ opts
            ++ (if c.homeDir = "" then [] else ["--home", c.homeDir]) }) ∧
    (∀ (c : ChainCmd) (cli home : String) (opts : List String),
      StartCommand { c with cliCmd := cli, cliHome := home } opts = StartCommand c opts) ∧
    StartCommand (New "appd" []) ["--pruning", "nothing"] =
      { program := "appd", arguments := ["start", "--pruning", "nothing"] } := by
  refine ⟨?_, ?_, ?_⟩
  · intro c opts
    simp only [StartCommand, daemonCommand, step.Exec, attachHome_eq, flagPair, commandStart]
  · intro c cli home opts
    simp only [StartCommand, daemonCommand, step.Exec, attachHome_eq]
  · decide

/-- C3: in unified generation (`cliCmd` empty) both split-only operations,
`LaunchpadSetConfigCommand` and `LaunchpadRestServerCommand`, end in the panic
of the source for all arguments, whatever the split-generation helpers would
do, and so return no descriptor. -/
theorem Launchpad_commands_panic_unified (c : ChainCmd) (h : c.cliCmd = "")
    (setConfig restServer : ChainCmd → String → String → Except String step.Option)
    (a b : String) :
    LaunchpadSetConfigCommand setConfig c a b
        = Except.error "config command doesn't exist for Stargate" ∧
    LaunchpadRestServerCommand restServer c a b
        = Except.error "rest-server command doesn't exist for Stargate" ∧
    (∀ d, LaunchpadSetConfigCommand setConfig c a b ≠ Except.ok d) ∧
    (∀ d, LaunchpadRestServerCommand restServer c a b ≠ Except.ok d) := by
  have hs : isStargate c = true := by simp [isStargate, h]
  refine ⟨?_, ?_, ?_, ?_⟩
  · simp [LaunchpadSetConfigCommand, hs]
  · simp [LaunchpadRestServerCommand, hs]
  · intro d; simp [LaunchpadSetConfigCommand, hs]
  · intro d; simp [LaunchpadRestServerCommand, hs]

theorem Launchpad_commands_panic_unified_witness :
    (New "appd" []).cliCmd = "" ∧
    LaunchpadSetConfigCommand (fun c a b => Except.ok (step.Exec c.cliCmd ["config", a, b]))
        (New "appd" []) "chain-id" "test-1"
      = Except.error "config command doesn't exist for Stargate" :=
  ⟨rfl, (Launchpad_commands_panic_unified (New "appd" []) rfl
      (fun c a b => Except.ok (step.Exec c.cliCmd ["config", a, b]))
      (fun c a b => Except.ok (step.Exec c.cliCmd ["rest-server", a, b]))
      "chain-id" "test-1").1⟩

/-- C4: in unified generation (`cliCmd` empty) the four key commands yield the
program `appCmd` with their fixed tokens around the account name, then
`--keyring-backend b` iff the keyring backend `b` is set, then
`--home homeDir` iff `homeDir` is non-empty. -/
theorem key_commands_unified (c : ChainCmd) (h : c.cliCmd = "") (n : String) :
    AddKeyCommand c n =
      { program := c.appCmd,
        arguments := ["keys", "add", n, "--output", "json"]
          ++ (if c.keyringBackend = "" then [] else ["--keyring-backend", c.keyringBackend])
          ++ (if c.homeDir = "" then [] else ["--home", c.homeDir]) } ∧
    ImportKeyCommand c n =
      { program := c.appCmd,
        arguments := ["keys", "add", n, "--recover"]
          ++ (if c.keyringBackend = "" then [] else ["--keyring-backend", c.keyringBackend])
          ++ (if c.homeDir = "" then [] else ["--home", c.homeDir]) } ∧
    ShowKeyAddressCommand c n =
      { program := c.appCmd,
        arguments := ["keys", "show", n, "--address"]
          ++ (if c.keyringBackend = "" then [] else ["--keyring-backend", c.keyringBackend])
          ++ (if c.homeDir = "" then [] else ["--home", c.homeDir]) } ∧
    ListKeysCommand c =
      { program := c.appCmd,
        arguments := ["keys", "list", "--output", "json"]
          ++ (if c.keyringBackend = "" then [] else ["--keyring-backend", c.keyringBackend])
          ++ (if c.homeDir = "" then [] else ["--home", c.homeDir]) } := by
  have hs : isStargate c = true := by simp [isStargate, h]
  refine ⟨?_, ?_, ?_, ?_⟩ <;>
    simp only [AddKeyCommand, ImportKeyCommand, ShowKeyAddressCommand, ListKeysCommand,
      cliCommand, hs, if_true, step.Exec, attachKeyringBackend_eq, attachHome_eq, flagPair,
      commandKeys, optionOutput, constJSON, optionRecover, optionAddress]

theorem key_commands_unified_witness :
    (New "appd" [WithKeyringBackend "test"]).cliCmd = "" ∧
    ListKeysCommand (New "appd" [WithKeyringBackend "test"]) =
      { program := "appd",
        arguments := ["keys", "list", "--output", "json", "--keyring-backend", "test"] } :=
  ⟨rfl, (key_commands_unified (New "appd" [WithKeyringBackend "test"]) rfl "alice").2.2.2.trans
    (by decide)⟩

/-- C5: client routing.  In unified generation (`cliCmd` empty) `cliCommand`
equals the daemon-routed descriptor: program `appCmd`, the command, then
`--home homeDir` iff `homeDir` is non-empty.  In split generation (`cliCmd`
non-empty) the program is `cliCmd` and the arguments are the command, then
`--home cliHome` iff `cliHome` is non-empty; `homeDir` plays no role there. -/
theorem cliCommand_routing (c : ChainCmd) (cmd : List String) :
    (c.cliCmd = "" →
      cliCommand c cmd = daemonCommand c cmd ∧
      cliCommand c cmd =
        { program := c.appCmd,
          arguments := cmd ++ (if c.homeDir = "" then [] else ["--home", c.homeDir]) }) ∧
    (c.cliCmd ≠ "" →
      cliCommand c cmd =
        { program := c.cliCmd,
          arguments := cmd ++ (if c.cliHome = "" then [] else ["--home", c.cliHome]) } ∧
      ∀ home : String, cliCommand { c with homeDir := home } cmd = cliCommand c cmd) := by
  constructor
  · intro h
    have hs : isStargate c = true := by simp [isStargate, h]
    simp only [cliCommand, hs, if_true, daemonCommand, step.Exec, attachHome_eq, flagPair,
      and_self]
  · intro h
    have hs : isStargate c = false := by simp [isStargate, h]
    have hs2 : ∀ home : String, isStargate { c with homeDir := home } = false := by
      intro home; simp [isStargate, h]
    refine ⟨?_, ?_⟩
    · simp only [cliCommand, hs, step.Exec, attachCLIHome_eq, flagPair]
      simp
    · intro home
      simp only [cliCommand, hs, hs2 home, step.Exec, attachCLIHome_eq]
      simp

theorem cliCommand_routing_witness :
    cliCommand (New "appd" [WithHome "/tmp/x"]) ["status"] =
      { program := "appd", arguments := ["status", "--home", "/tmp/x"] } ∧
    cliCommand (New "appd" [WithHome "/tmp/x", WithLaunchpad "appcli"]) ["status"] =
      { program := "appcli", arguments := ["status"] } :=
  ⟨((cliCommand_routing (New "appd" [WithHome "/tmp/x"]) ["status"]).1 rfl).2.trans
      (by decide),
   ((cliCommand_routing (New "appd" [WithHome "/tmp/x", WithLaunchpad "appcli"])
      ["status"]).2 (by decide)).1.trans (by decide)⟩

/-- C6: for every builder, whatever its generation, the fixed-token daemon
commands yield the program `appCmd` with the arguments `collect-gentxs`,
`validate-genesis`, `tendermint show-node-id` and
`add-genesis-account address coins` respectively, each followed by
`--home homeDir` iff `homeDir` is non-empty and by nothing else. -/
theorem fixed_daemon_commands (c : ChainCmd) (address coins : String) :
    CollectGentxsCommand c =
      { program := c.appCmd,
        arguments := ["collect-gentxs"]
          ++ (if c.homeDir = "" then [] else ["--home", c.homeDir]) } ∧
    ValidateGenesisCommand c =
      { program := c.appCmd,
        arguments := ["validate-genesis"]
          ++ (if c.homeDir = "" then [] else ["--home", c.homeDir]) } ∧
    ShowNodeIDCommand c =
      { program := c.appCmd,
        arguments := ["tendermint", "show-node-id"]
          ++ (if c.homeDir = "" then [] else ["--home", c.homeDir]) } ∧
    AddGenesisAccountCommand c address coins =
      { program := c.appCmd,
        arguments := ["add-genesis-account", address, coins]
          ++ (if c.homeDir = "" then [] else ["--home", c.homeDir]) } := by
  refine ⟨?_, ?_, ?_, ?_⟩ <;>
    simp only [CollectGentxsCommand, ValidateGenesisCommand, ShowNodeIDCommand,
      AddGenesisAccountCommand, daemonCommand, step.Exec, attachHome_eq, flagPair,
      commandCollectGentxs, commandValidateGenesis, constTendermint, commandShowNodeID,
      commandAddGenesisAccount]

theorem GentxKind_build_eq (k : GentxKind) (v : String) (s : List String) :
    k.build v s = s ++ flagPair k.flag v := by
  have hv := utf8ByteSize_pos_iff v
  by_cases h : v = ""
  · subst h
    have hz : ¬ ("".utf8ByteSize > 0) := by decide
    cases k <;> simp [GentxKind.build, GentxWithMoniker, GentxWithCommissionRate,
      GentxWithCommissionMaxRate, GentxWithCommissionMaxChangeRate,
      GentxWithMinSelfDelegation, GentxWithGasPrices, flagPair, hz]
  · have hp : v.utf8ByteSize > 0 := hv.2 h
    cases k <;> simp [GentxKind.build, GentxKind.flag, GentxWithMoniker,
      GentxWithCommissionRate, GentxWithCommissionMaxRate, GentxWithCommissionMaxChangeRate,
      GentxWithMinSelfDelegation, GentxWithGasPrices, flagPair, h, hp,
      optionValidatorMoniker, optionValidatorCommissionRate,
      optionValidatorCommissionMaxRate, optionValidatorCommissionMaxChangeRate,
      optionValidatorMinSelfDelegation, optionValidatorGasPrices]

/-- C7: each of the six genesis-transaction option constructors returns the
input sequence unchanged when its value is the empty string, and otherwise the
input sequence with exactly its declared flag and the value appended. -/
theorem GentxWith_constructors (v : String) (s : List String) :
    GentxWithMoniker v s = (if v = "" then s else s ++ ["--moniker", v]) ∧
    GentxWithCommissionRate v s = (if v = "" then s else s ++ ["--commission-rate", v]) ∧
    GentxWithCommissionMaxRate v s
      = (if v = "" then s else s ++ ["--commission-max-rate", v]) ∧
    GentxWithCommissionMaxChangeRate v s
      = (if v = "" then s else s ++ ["--commission-max-change-rate", v]) ∧
    GentxWithMinSelfDelegation v s
      = (if v = "" then s else s ++ ["--min-self-delegation", v]) ∧
    GentxWithGasPrices v s = (if v = "" then s else s ++ ["--gas-prices", v]) := by
  have h1 := GentxKind_build_eq .moniker v s
  have h2 := GentxKind_build_eq .commissionRate v s
  have h3 := GentxKind_build_eq .commissionMaxRate v s
  have h4 := GentxKind_build_eq .commissionMaxChangeRate v s
  have h5 := GentxKind_build_eq .minSelfDelegation v s
  have h6 := GentxKind_build_eq .gasPrices v s
  simp only [GentxKind.build, GentxKind.flag, flagPair] at h1 h2 h3 h4 h5 h6
  by_cases h : v = ""
  · simp only [h, if_true, List.append_nil] at h1 h2 h3 h4 h5 h6 ⊢
    exact ⟨h1, h2, h3, h4, h5, h6⟩
  · simp only [h, if_false] at h1 h2 h3 h4 h5 h6 ⊢
    exact ⟨h1, h2, h3, h4, h5, h6⟩

theorem applyGentxOptions_eq (opts : List (GentxKind × String)) (s : List String) :
    applyGentxOptions (opts.map (fun o => o.1.build o.2)) s = s ++ gentxPairs opts := by
  induction opts generalizing s with
  | nil => simp [applyGentxOptions, gentxPairs]
  | cons o rest ih =>
    have ih2 := ih (o.1.build o.2 s)
    simp only [applyGentxOptions, List.map_cons, List.foldl_cons] at ih2 ⊢
    rw [ih2, GentxKind_build_eq]
    by_cases h : o.2 = "" <;> simp [gentxPairs, flagPair, List.filter_cons, h]

theorem gentxPairs_length (opts : List (GentxKind × String)) :
    (gentxPairs opts).length = 2 * (opts.filter (fun o => o.2 ≠ "")).length := by
  unfold gentxPairs
  induction opts.filter (fun o => o.2 ≠ "") with
  | nil => simp
  | cons o rest ih => simp only [List.flatMap_cons, List.length_append, ih, List.length_cons,
      List.length_nil]; omega

/-- C8: applying a list of genesis-transaction options built by the six
constructors as a left-to-right fold yields the starting sequence followed by
the flag/value pairs of exactly the options whose value is non-empty, in the
order the options were supplied; the length grows by two for each such option,
and a concatenated option list acts as its first half followed by its second. -/
theorem applyGentxOptions_fold (opts : List (GentxKind × String)) (s : List String) :
    applyGentxOptions (opts.map (fun o => o.1.build o.2)) s
      = s ++ (opts.filter (fun o => o.2 ≠ "")).flatMap (fun o => [o.1.flag, o.2]) ∧
    (applyGentxOptions (opts.map (fun o => o.1.build o.2)) s).length
      = s.length + 2 * (opts.filter (fun o => o.2 ≠ "")).length ∧
    (∀ more : List (GentxKind × String),
      applyGentxOptions ((opts ++ more).map (fun o => o.1.build o.2)) s
        = applyGentxOptions (more.map (fun o => o.1.build o.2))
            (applyGentxOptions (opts.map (fun o => o.1.build o.2)) s)) := by
  refine ⟨?_, ?_, ?_⟩
  · exact applyGentxOptions_eq opts s
  · rw [applyGentxOptions_eq, List.length_append, gentxPairs_length]
  · intro more
    simp only [applyGentxOptions, List.map_append, List.foldl_append]

/-- C9: each flag attachment policy returns the sequence itself when its field
is empty and otherwise the sequence with exactly its flag and the field value
appended; so the pair is appended iff the field is non-empty, the sequence is
returned as it is iff the field is empty, and the input is always a leading
segment of the output. -/
theorem attach_policies (c : ChainCmd) (s : List String) :
    (attachChainID c s = (if c.chainID = "" then s else s ++ ["--chain-id", c.chainID]) ∧
      attachKeyringBackend c s
        = (if c.keyringBackend = "" then s
           else s ++ ["--keyring-backend", c.keyringBackend]) ∧
      attachHome c s = (if c.homeDir = "" then s else s ++ ["--home", c.homeDir])) ∧
    ((attachChainID c s = s ++ ["--chain-id", c.chainID] ↔ c.chainID ≠ "") ∧
      (attachKeyringBackend c s = s ++ ["--keyring-backend", c.keyringBackend]
        ↔ c.keyringBackend ≠ "") ∧
      (attachHome c s = s ++ ["--home", c.homeDir] ↔ c.homeDir ≠ "")) ∧
    ((attachChainID c s = s ↔ c.chainID = "") ∧
      (attachKeyringBackend c s = s ↔ c.keyringBackend = "") ∧
      (attachHome c s = s ↔ c.homeDir = "")) ∧
    (s <+: attachChainID c s ∧ s <+: attachKeyringBackend c s ∧ s <+: attachHome c s) := by
  rw [attachChainID_eq, attachKeyringBackend_eq, attachHome_eq]
  unfold flagPair
  by_cases h1 : c.chainID = "" <;> by_cases h2 : c.keyringBackend = "" <;>
    by_cases h3 : c.homeDir = "" <;> simp [h1, h2, h3]

/-- C10, as stated, fails: on a builder with chain ID, keyring backend and
home set, applying any of the three policies twice to the empty sequence
appends its pair twice, which is not what one application gives. -/
theorem attach_twice_ne_once :
    attachChainID (New "appd" [WithChainID "test-1"])
        (attachChainID (New "appd" [WithChainID "test-1"]) [])
      ≠ attachChainID (New "appd" [WithChainID "test-1"]) [] ∧
    attachKeyringBackend (New "appd" [WithKeyringBackend "test"])
        (attachKeyringBackend (New "appd" [WithKeyringBackend "test"]) [])
      ≠ attachKeyringBackend (New "appd" [WithKeyringBackend "test"]) [] ∧
    attachHome (New "appd" [WithHome "/tmp/x"])
        (attachHome (New "appd" [WithHome "/tmp/x"]) [])
      ≠ attachHome (New "appd" [WithHome "/tmp/x"]) [] := by
  decide

/-- C10, amended: applying a flag attachment policy twice appends its pair
twice, so the second application repeats the first exactly when the field of
the policy is empty (and then both return the sequence unchanged). -/
theorem attach_twice (c : ChainCmd) (s : List String) :
    (attachChainID c (attachChainID c s)
        = (if c.chainID = "" then s
           else s ++ ["--chain-id", c.chainID, "--chain-id", c.chainID]) ∧
      attachKeyringBackend c (attachKeyringBackend c s)
        = (if c.keyringBackend = "" then s
           else s ++ ["--keyring-backend", c.keyringBackend,
                      "--keyring-backend", c.keyringBackend]) ∧
      attachHome c (attachHome c s)
        = (if c.homeDir = "" then s else s ++ ["--home", c.homeDir, "--home", c.homeDir])) ∧
    ((attachChainID c (attachChainID c s) = attachChainID c s ↔ c.chainID = "") ∧
      (attachKeyringBackend c (attachKeyringBackend c s) = attachKeyringBackend c s
        ↔ c.keyringBackend = "") ∧
      (attachHome c (attachHome c s) = attachHome c s ↔ c.homeDir = "")) := by
  simp only [attachChainID_eq, attachKeyringBackend_eq, attachHome_eq]
  unfold flagPair
  by_cases h1 : c.chainID = "" <;> by_cases h2 : c.keyringBackend = "" <;>
    by_cases h3 : c.homeDir = "" <;> simp [h1, h2, h3]

theorem Policy_apply_eq (p : Policy) (c : ChainCmd) (s : List String) :
    p.apply c s = s ++ p.pair c := by
  cases p
  · exact attachChainID_eq c s
  · exact attachKeyringBackend_eq c s
  · exact attachHome_eq c s

theorem Policy_pair_eq (p : Policy) (c : ChainCmd) :
    p.pair c = [] ↔ p.field c = "" := by
  cases p <;> simp only [Policy.pair, Policy.field, flagPair] <;> split <;> simp_all

/-- C11: for two different flag attachment policies `p` and `q`, `p` after `q`
gives the sequence followed by the pair of `q` and then the pair of `p`, and
`q` after `p` gives the same with the two pairs exchanged: both results keep
the sequence as a leading segment, have the same length and the same tokens up
to order, and they are equal exactly when at most one of the two fields is
set. -/
theorem attach_policies_commute (c : ChainCmd) (s : List String) (p q : Policy)
    (hpq : p ≠ q) :
    p.apply c (q.apply c s) = s ++ q.pair c ++ p.pair c ∧
    q.apply c (p.apply c s) = s ++ p.pair c ++ q.pair c ∧
    s <+: p.apply c (q.apply c s) ∧
    s <+: q.apply c (p.apply c s) ∧
    (p.apply c (q.apply c s)).length = (q.apply c (p.apply c s)).length ∧
    (p.apply c (q.apply c s)).Perm (q.apply c (p.apply c s)) ∧
    (p.apply c (q.apply c s) = q.apply c (p.apply c s)
      ↔ p.field c = "" ∨ q.field c = "") := by
  simp only [Policy_apply_eq]
  refine ⟨trivial, trivial, ?_, ?_, ?_, ?_, ?_⟩
  · exact ⟨q.pair c ++ p.pair c, by simp⟩
  · exact ⟨p.pair c ++ q.pair c, by simp⟩
  · simp only [List.length_append]; omega
  · rw [List.append_assoc, List.append_assoc]
    exact List.Perm.append_left s List.perm_append_comm
  · rw [List.append_assoc, List.append_assoc, List.append_right_inj]
    constructor
    · intro h
      by_contra hne
      rw [not_or] at hne
      have hp : p.field c ≠ "" := hne.1
      have hq : q.field c ≠ "" := hne.2
      cases p <;> cases q <;>
        simp_all [Policy.pair, Policy.field, flagPair]
    · rintro (h | h)
      · rw [(Policy_pair_eq p c).2 h]; simp
      · rw [(Policy_pair_eq q c).2 h]; simp

theorem attach_policies_commute_witness :
    attachHome (New "appd" [WithHome "/tmp/x", WithChainID "test-1"])
        (attachChainID (New "appd" [WithHome "/tmp/x", WithChainID "test-1"]) ["init"])
      = ["init", "--chain-id", "test-1", "--home", "/tmp/x"] ∧
    attachChainID (New "appd" [WithHome "/tmp/x", WithChainID "test-1"])
        (attachHome (New "appd" [WithHome "/tmp/x", WithChainID "test-1"]) ["init"])
      = ["init", "--home", "/tmp/x", "--chain-id", "test-1"] :=
  ⟨(attach_policies_commute (New "appd" [WithHome "/tmp/x", WithChainID "test-1"]) ["init"]
      Policy.home Policy.chainID (by decide)).1.trans (by decide),
   (attach_policies_commute (New "appd" [WithHome "/tmp/x", WithChainID "test-1"]) ["init"]
      Policy.home Policy.chainID (by decide)).2.1.trans (by decide)⟩

/-- C12, as stated, fails: on a builder without keyring backend, `StartCommand`
passes the caller's tokens through, so the extra tokens `--keyring-backend os`
put the token `--keyring-backend` into the argument sequence. -/
theorem StartCommand_passes_keyring_flag :
    (New "appd" []).keyringBackend = "" ∧
    "--keyring-backend" ∈
      (StartCommand (New "appd" []) ["--keyring-backend", "os"]).arguments := by
  decide

/-- C12, amended: on a builder whose keyring backend is unset, none of the ten
command methods adds the token `--keyring-backend`: when the token is neither
the chain ID nor a home directory of the builder, the argument sequence of a
method contains it only if the caller supplied it as an argument. -/
theorem no_keyring_flag_unless_supplied (c : ChainCmd) (hk : c.keyringBackend = "")
    (hc : c.chainID ≠ "--keyring-backend") (hh : c.homeDir ≠ "--keyring-backend")
    (hcli : c.cliHome ≠ "--keyring-backend") :
    (∀ opts : List String, "--keyring-backend" ∉ opts →
      "--keyring-backend" ∉ (StartCommand c opts).arguments) ∧
    (∀ moniker : String, moniker ≠ "--keyring-backend" →
      "--keyring-backend" ∉ (InitCommand c moniker).arguments) ∧
    (∀ n : String, n ≠ "--keyring-backend" →
      "--keyring-backend" ∉ (AddKeyCommand c n).arguments ∧
      "--keyring-backend" ∉ (ImportKeyCommand c n).arguments ∧
      "--keyring-backend" ∉ (ShowKeyAddressCommand c n).arguments) ∧
    "--keyring-backend" ∉ (ListKeysCommand c).arguments ∧
    (∀ address coins : String,
      address ≠ "--keyring-backend" → coins ≠ "--keyring-backend" →
      "--keyring-backend" ∉ (AddGenesisAccountCommand c address coins).arguments) ∧
    "--keyring-backend" ∉ (CollectGentxsCommand c).arguments ∧
    "--keyring-backend" ∉ (ValidateGenesisCommand c).arguments ∧
    "--keyring-backend" ∉ (ShowNodeIDCommand c).arguments := by
  have hhome : "--keyring-backend" ∉ flagPair "--home" c.homeDir := by
    unfold flagPair; split <;> simp [Ne.symm hh]
  have hclihome : "--keyring-backend" ∉ flagPair "--home" c.cliHome := by
    unfold flagPair; split <;> simp [Ne.symm hcli]
  have hchain : "--keyring-backend" ∉ flagPair "--chain-id" c.chainID := by
    unfold flagPair; split <;> simp [Ne.symm hc]
  have hkb : flagPair "--keyring-backend" c.keyringBackend = [] := by
    simp [flagPair, hk]
  have hcliCommand : ∀ cmd : List String, "--keyring-backend" ∉ cmd →
      "--keyring-backend" ∉ (cliCommand c cmd).arguments := by
    intro cmd hcmd
    unfold cliCommand
    split
    · simp only [step.Exec, attachHome_eq, List.mem_append, not_or]
      exact ⟨hcmd, hhome⟩
    · simp only [step.Exec, attachCLIHome_eq, List.mem_append, not_or]
      exact ⟨hcmd, hclihome⟩
  have hdaemon : ∀ cmd : List String, "--keyring-backend" ∉ cmd →
      "--keyring-backend" ∉ (daemonCommand c cmd).arguments := by
    intro cmd hcmd
    simp only [daemonCommand, step.Exec, attachHome_eq, List.mem_append, not_or]
    exact ⟨hcmd, hhome⟩
  refine ⟨?_, ?_, ?_, ?_, ?_, ?_, ?_, ?_⟩
  · intro opts hopts
    apply hdaemon
    simp [commandStart, hopts]
  · intro moniker hm
    apply hdaemon
    simp only [attachChainID_eq, List.mem_append, not_or]
    exact ⟨by simp [commandInit, Ne.symm hm], hchain⟩
  · intro n hn
    refine ⟨?_, ?_, ?_⟩ <;>
    · apply hcliCommand
      simp [attachKeyringBackend_eq, hkb, commandKeys, optionOutput, constJSON,
        optionRecover, optionAddress, Ne.symm hn]
  · apply hcliCommand
    simp [attachKeyringBackend_eq, hkb, commandKeys, optionOutput, constJSON]
  · intro address coins ha hco
    apply hdaemon
    simp [commandAddGenesisAccount, Ne.symm ha, Ne.symm hco]
  · apply hdaemon; simp [commandCollectGentxs]
  · apply hdaemon; simp [commandValidateGenesis]
  · apply hdaemon; simp [constTendermint, commandShowNodeID]

theorem no_keyring_flag_unless_supplied_witness :
    "--keyring-backend" ∉
      (ListKeysCommand (New "appd" [WithHome "/tmp/x", WithChainID "test-1"])).arguments ∧
    "--keyring-backend" ∉
      (StartCommand (New "appd" [WithHome "/tmp/x", WithChainID "test-1"])
        ["--pruning", "nothing"]).arguments :=
  ⟨(no_keyring_flag_unless_supplied (New "appd" [WithHome "/tmp/x", WithChainID "test-1"])
      rfl (by decide) (by decide) (by decide)).2.2.2.1,
   (no_keyring_flag_unless_supplied (New "appd" [WithHome "/tmp/x", WithChainID "test-1"])
      rfl (by decide) (by decide) (by decide)).1 ["--pruning", "nothing"] (by decide)⟩

theorem countPair_append_pair (a b : String) (l : List String) (h : a ∉ l) :
    countPair a b (l ++ [a, b]) = 1 := by
  induction l with
  | nil => simp [countPair]
  | cons x rest ih =>
    have hx : x ≠ a := fun e => h (by simp [e])
    have hrest : a ∉ rest := fun m => h (List.mem_cons_of_mem x m)
    have ih2 := ih hrest
    cases rest with
    | nil => simp [countPair, hx]
    | cons y more =>
      simp only [List.cons_append, countPair, hx, false_and, if_false, Nat.zero_add] at ih2 ⊢
      exact ih2

/-- C13, as stated, fails: with home `/tmp/x`, `StartCommand` appends its pair
after the caller's tokens, so the extra tokens `--home /tmp/x` give an
argument sequence with two `--home /tmp/x` pairs, not exactly one. -/
theorem StartCommand_two_home_pairs :
    (New "appd" [WithHome "/tmp/x"]).homeDir ≠ "" ∧
    (StartCommand (New "appd" [WithHome "/tmp/x"]) ["--home", "/tmp/x"]).arguments
      = ["start", "--home", "/tmp/x", "--home", "/tmp/x"] ∧
    countPair "--home" "/tmp/x"
      (StartCommand (New "appd" [WithHome "/tmp/x"]) ["--home", "/tmp/x"]).arguments = 2 := by
  decide

/-- C13, amended: on a builder with non-empty `homeDir`, the argument sequence
of every daemon-routed command is its operation-specific tokens followed by the
pair `--home homeDir` as the last two tokens; this is the only such pair when
no operation-specific token is `--home`, which always holds for the three
commands without caller-supplied tokens. -/
theorem home_pair_last (c : ChainCmd) (hh : c.homeDir ≠ "") :
    (∀ opts : List String,
      (StartCommand c opts).arguments = ["start"] ++ opts ++ ["--home", c.homeDir] ∧
      ("--home" ∉ opts →
        countPair "--home" c.homeDir (StartCommand c opts).arguments = 1)) ∧
    (∀ moniker : String,
      (InitCommand c moniker).arguments
        = ["init", moniker] ++ (if c.chainID = "" then [] else ["--chain-id", c.chainID])
            ++ ["--home", c.homeDir] ∧
      (moniker ≠ "--home" → c.chainID ≠ "--home" →
        countPair "--home" c.homeDir (InitCommand c moniker).arguments = 1)) ∧
    (∀ address coins : String,
      (AddGenesisAccountCommand c address coins).arguments
        = ["add-genesis-account", address, coins] ++ ["--home", c.homeDir] ∧
      (address ≠ "--home" → coins ≠ "--home" →
        countPair "--home" c.homeDir
          (AddGenesisAccountCommand c address coins).arguments = 1)) ∧
    ((CollectGentxsCommand c).arguments = ["collect-gentxs"] ++ ["--home", c.homeDir] ∧
      countPair "--home" c.homeDir (CollectGentxsCommand c).arguments = 1) ∧
    ((ValidateGenesisCommand c).arguments = ["validate-genesis"] ++ ["--home", c.homeDir] ∧
      countPair "--home" c.homeDir (ValidateGenesisCommand c).arguments = 1) ∧
    ((ShowNodeIDCommand c).arguments
        = ["tendermint", "show-node-id"] ++ ["--home", c.homeDir] ∧
      countPair "--home" c.homeDir (ShowNodeIDCommand c).arguments = 1) := by
  have hd : ∀ cmd : List String, (daemonCommand c cmd).arguments = cmd ++ ["--home", c.homeDir] := by
    intro cmd
    simp [daemonCommand, step.Exec, attachHome_eq, flagPair, hh]
  have hcount : ∀ cmd : List String, "--home" ∉ cmd →
      countPair "--home" c.homeDir (daemonCommand c cmd).arguments = 1 := by
    intro cmd hcmd
    rw [hd]
    exact countPair_append_pair "--home" c.homeDir cmd hcmd
  refine ⟨?_, ?_, ?_, ?_, ?_, ?_⟩
  · intro opts
    refine ⟨by simp [StartCommand, hd, commandStart], fun hopts => ?_⟩
    apply hcount
    simp [commandStart, hopts]
  · intro moniker
    refine ⟨by simp [InitCommand, hd, attachChainID_eq, flagPair, commandInit],
      fun hm hc => ?_⟩
    apply hcount
    simp only [attachChainID_eq, flagPair, List.mem_append, not_or]
    refine ⟨by simp [commandInit, Ne.symm hm], ?_⟩
    split <;> simp [Ne.symm hc]
  · intro address coins
    refine ⟨by simp [AddGenesisAccountCommand, hd, commandAddGenesisAccount],
      fun ha hco => ?_⟩
    apply hcount
    simp [commandAddGenesisAccount, Ne.symm ha, Ne.symm hco]
  · refine ⟨by simp [CollectGentxsCommand, hd, commandCollectGentxs], ?_⟩
    apply hcount; simp [commandCollectGentxs]
  · refine ⟨by simp [ValidateGenesisCommand, hd, commandValidateGenesis], ?_⟩
    apply hcount; simp [commandValidateGenesis]
  · refine ⟨by simp [ShowNodeIDCommand, hd, constTendermint, commandShowNodeID], ?_⟩
    apply hcount; simp [constTendermint, commandShowNodeID]

theorem home_pair_last_witness :
    (InitCommand (New "appd" [WithHome "/tmp/x", WithChainID "test-1"]) "mymoniker").arguments
      = ["init", "mymoniker", "--chain-id", "test-1", "--home", "/tmp/x"] ∧
    countPair "--home" "/tmp/x"
      (InitCommand (New "appd" [WithHome "/tmp/x", WithChainID "test-1"])
        "mymoniker").arguments = 1 :=
  ⟨((home_pair_last (New "appd" [WithHome "/tmp/x", WithChainID "test-1"]) (by decide)).2.1
      "mymoniker").1.trans (by decide),
   ((home_pair_last (New "appd" [WithHome "/tmp/x", WithChainID "test-1"]) (by decide)).2.1
      "mymoniker").2 (by decide) (by decide)⟩

theorem OptKind_build_get (k : OptKind) (v : String) (c : ChainCmd) (f : Field) :
    (k.build v c).get f = if f = k.field then v else c.get f := by
  cases k <;> cases f <;> rfl

theorem valuesFor_cons (f : Field) (o : OptKind × String) (rest : List (OptKind × String)) :
    valuesFor f (o :: rest)
      = if o.1.field = f then o.2 :: valuesFor f rest else valuesFor f rest := by
  unfold valuesFor
  by_cases h : o.1.field = f <;> simp [List.filter_cons, h]

theorem valuesFor_append (f : Field) (xs ys : List (OptKind × String)) :
    valuesFor f (xs ++ ys) = valuesFor f xs ++ valuesFor f ys := by
  simp [valuesFor]

theorem foldl_options_get (opts : List (OptKind × String)) (c : ChainCmd) (f : Field) :
    ((buildOptions opts).foldl (fun chainCmd applyOption => applyOption chainCmd) c).get f
      = (valuesFor f opts).getLastD (c.get f) := by
  induction opts generalizing c with
  | nil => rfl
  | cons o rest ih =>
    have ih2 := ih (o.1.build o.2 c)
    simp only [buildOptions, List.map_cons, List.foldl_cons] at ih2 ⊢
    rw [ih2, OptKind_build_get, valuesFor_cons]
    by_cases h : o.1.field = f
    · rw [if_pos h, if_pos h.symm, List.getLastD_cons]
    · have h2 : ¬ f = o.1.field := fun e => h e.symm
      rw [if_neg h, if_neg h2]

theorem New_get (appCmd : String) (opts : List (OptKind × String)) (f : Field) :
    (New appCmd (buildOptions opts)).get f
      = (valuesFor f opts).getLastD (if f = Field.appCmd then appCmd else "") := by
  unfold New
  rw [foldl_options_get]
  cases f <;> rfl

theorem isStargate_iff (c : ChainCmd) : isStargate c = true ↔ c.cliCmd = "" := by
  simp [isStargate]

theorem valuesFor_no_launchpad (opts : List (OptKind × String))
    (h : ∀ o ∈ opts, o.1 ≠ OptKind.withLaunchpad) : valuesFor Field.cliCmd opts = [] := by
  unfold valuesFor
  rw [List.map_eq_nil_iff, List.filter_eq_nil_iff]
  intro o ho
  have := h o ho
  cases hk : o.1 <;> simp_all [OptKind.field]

/-- C14: a builder is in unified generation iff its `cliCmd` is empty; for a
builder made by `New` from the exported options this is decided by the value
of the last `WithLaunchpad` option alone: without such an option the builder
is unified, with a last one carrying `cli` it is split iff `cli` is non-empty,
and no other option changes the generation. -/
theorem generation_iff_cliCmd :
    (∀ c : ChainCmd, isStargate c = true ↔ c.cliCmd = "") ∧
    (∀ (appCmd : String) (opts : List (OptKind × String)),
      (New appCmd (buildOptions opts)).cliCmd = (valuesFor Field.cliCmd opts).getLastD "") ∧
    (∀ (appCmd : String) (opts : List (OptKind × String)),
      (∀ o ∈ opts, o.1 ≠ OptKind.withLaunchpad) →
      isStargate (New appCmd (buildOptions opts)) = true) ∧
    (∀ (appCmd cli : String) (before after : List (OptKind × String)),
      (∀ o ∈ after, o.1 ≠ OptKind.withLaunchpad) →
      (isStargate (New appCmd (buildOptions (before ++ (OptKind.withLaunchpad, cli) :: after)))
          = false ↔ cli ≠ "")) ∧
    (∀ (k : OptKind) (v : String) (c : ChainCmd), k ≠ OptKind.withLaunchpad →
      isStargate (k.build v c) = isStargate c) := by
  have hcli : ∀ (appCmd : String) (opts : List (OptKind × String)),
      (New appCmd (buildOptions opts)).cliCmd = (valuesFor Field.cliCmd opts).getLastD "" := by
    intro appCmd opts
    exact New_get appCmd opts Field.cliCmd
  refine ⟨isStargate_iff, hcli, ?_, ?_, ?_⟩
  · intro appCmd opts h
    rw [isStargate_iff, hcli, valuesFor_no_launchpad opts h]
    rfl
  · intro appCmd cli before after h
    have hv : valuesFor Field.cliCmd (before ++ (OptKind.withLaunchpad, cli) :: after)
        = valuesFor Field.cliCmd before ++ [cli] := by
      rw [valuesFor_append, valuesFor_cons, valuesFor_no_launchpad after h]
      rfl
    rw [← Bool.not_eq_true, isStargate_iff, hcli, hv, List.getLastD_concat]
  · intro k v c hk
    have h := OptKind_build_get k v c Field.cliCmd
    have hne : ¬ Field.cliCmd = k.field := by
      cases k <;> simp_all [OptKind.field]
    rw [if_neg hne] at h
    simp only [ChainCmd.get] at h
    simp [isStargate, h]

theorem generation_iff_cliCmd_witness :
    isStargate (New "appd" [WithHome "/tmp/x", WithLaunchpad "appcli", WithChainID "test-1"])
      = false ∧
    isStargate (New "appd" [WithHome "/tmp/x", WithChainID "test-1"]) = true :=
  ⟨(generation_iff_cliCmd.2.2.2.1 "appd" "appcli" [(OptKind.withHome, "/tmp/x")]
      [(OptKind.withChainID, "test-1")] (by decide)).2 (by decide),
   generation_iff_cliCmd.2.2.1 "appd"
      [(OptKind.withHome, "/tmp/x"), (OptKind.withChainID, "test-1")] (by decide)⟩

/-- C18: the keyring password is not reflected in any command: replacing the
`keyringPassword` of a builder by any other value changes the descriptor of
none of the ten command methods, for all arguments. -/
theorem keyringPassword_not_reflected (c : ChainCmd) (pw : String) :
    (∀ opts : List String,
      StartCommand { c with keyringPassword := pw } opts = StartCommand c opts) ∧
    (∀ moniker : String,
      InitCommand { c with keyringPassword := pw } moniker = InitCommand c moniker) ∧
    (∀ n : String,
      AddKeyCommand { c with keyringPassword := pw } n = AddKeyCommand c n ∧
      ImportKeyCommand { c with keyringPassword := pw } n = ImportKeyCommand c n ∧
      ShowKeyAddressCommand { c with keyringPassword := pw } n
        = ShowKeyAddressCommand c n) ∧
    ListKeysCommand { c with keyringPassword := pw } = ListKeysCommand c ∧
    (∀ address coins : String,
      AddGenesisAccountCommand { c with keyringPassword := pw } address coins
        = AddGenesisAccountCommand c address coins) ∧
    CollectGentxsCommand { c with keyringPassword := pw } = CollectGentxsCommand c ∧
    ValidateGenesisCommand { c with keyringPassword := pw } = ValidateGenesisCommand c ∧
    ShowNodeIDCommand { c with keyringPassword := pw } = ShowNodeIDCommand c := by
  refine ⟨fun _ => rfl, fun _ => rfl, fun _ => ⟨rfl, rfl, rfl⟩, rfl, fun _ _ => rfl,
    rfl, rfl, rfl⟩

/-- C20: each exported construction option sets exactly its own field and
leaves the seven other fields, `appCmd` and `cliHome` among them, unchanged;
`New` applies the options from left to right to the builder that has only
`appCmd` set, so `appCmd` and `cliHome` keep their initial values and every
other field ends with the value of the last option that sets it, or empty. -/
theorem options_frame_and_order :
    (∀ (k : OptKind) (v : String) (c : ChainCmd) (f : Field),
      (k.build v c).get f = if f = k.field then v else c.get f) ∧
    (∀ (v : String) (c : ChainCmd),
      (WithHome v c).homeDir = v ∧ (WithChainID v c).chainID = v ∧
      (WithKeyringBackend v c).keyringBackend = v ∧
      (WithKeyringPassword v c).keyringPassword = v ∧
      (WithLaunchpad v c).cliCmd = v ∧ (WitNodeAddress v c).nodeAddress = v) ∧
    (∀ appCmd : String, New appCmd [] =
      { appCmd := appCmd, chainID := "", homeDir := "", keyringBackend := "",
        keyringPassword := "", cliCmd := "", cliHome := "", nodeAddress := "" }) ∧
    (∀ (appCmd : String) (opts more : List Option),
      New appCmd (opts ++ more)
        = more.foldl (fun chainCmd applyOption => applyOption chainCmd) (New appCmd opts)) ∧
    (∀ (appCmd : String) (opts : List (OptKind × String)),
      (New appCmd (buildOptions opts)).appCmd = appCmd ∧
      (New appCmd (buildOptions opts)).cliHome = "") ∧
    (∀ (appCmd : String) (opts : List (OptKind × String)) (f : Field),
      (New appCmd (buildOptions opts)).get f
        = (valuesFor f opts).getLastD (if f = Field.appCmd then appCmd else "")) := by
  refine ⟨OptKind_build_get, fun _ _ => ⟨rfl, rfl, rfl, rfl, rfl, rfl⟩, fun _ => rfl, ?_, ?_,
    New_get⟩
  · intro appCmd opts more
    simp only [New, List.foldl_append]
  · intro appCmd opts
    have h1 := New_get appCmd opts Field.appCmd
    have h2 := New_get appCmd opts Field.cliHome
    have e1 : valuesFor Field.appCmd opts = [] := by
      unfold valuesFor
      rw [List.map_eq_nil_iff, List.filter_eq_nil_iff]
      intro o _
      cases hk : o.1 <;> simp [OptKind.field]
    have e2 : valuesFor Field.cliHome opts = [] := by
      unfold valuesFor
      rw [List.map_eq_nil_iff, List.filter_eq_nil_iff]
      intro o _
      cases hk : o.1 <;> simp [OptKind.field]
    rw [e1] at h1
    rw [e2] at h2
    exact ⟨h1, h2⟩

end chaincmd

namespace conf

theorem AccountByName_loop_eq (name : String) (accounts : List Account) :
    AccountByName.loop name accounts
      = match accounts.find? (fun a => a.Name == name) with
        | some a => (a, true)
        | none => (Account.zero, false) := by
  induction accounts with
  | nil => rfl
  | cons a rest ih =>
    by_cases h : a.Name = name
    · simp [AccountByName.loop, List.find?_cons, h]
    · simp [AccountByName.loop, List.find?_cons, h, ih]

/-- C15: `validate` returns no error iff there is at least one account and the
validator name is non-empty; with no account it returns the validation error
`at least 1 account is needed`, whatever the validator name; with an account
but an empty validator name it returns `validator is required`; and the text
of a validation error is `config is not valid: ` followed by its message. -/
theorem validate_spec (conf : Config) :
    (validate conf = none ↔ conf.Accounts ≠ [] ∧ conf.Validator.Name ≠ "") ∧
    (conf.Accounts = [] →
      validate conf = some (Err.validation { Message := "at least 1 account is needed" })) ∧
    (conf.Accounts ≠ [] → conf.Validator.Name = "" →
      validate conf = some (Err.validation { Message := "validator is required" })) ∧
    (∀ e : ValidationError, e.Error = "config is not valid: " ++ e.Message) ∧
    ValidationError.Error { Message := "at least 1 account is needed" }
      = "config is not valid: at least 1 account is needed" ∧
    ValidationError.Error { Message := "validator is required" }
      = "config is not valid: validator is required" := by
  refine ⟨?_, ?_, ?_, fun _ => rfl, by decide, by decide⟩
  · unfold validate
    by_cases ha : conf.Accounts = [] <;> by_cases hv : conf.Validator.Name = "" <;>
      simp [ha, hv]
  · intro ha
    simp [validate, ha]
  · intro ha hv
    simp [validate, ha, hv]

theorem validate_spec_witness :
    validate Config.zero
      = some (Err.validation { Message := "at least 1 account is needed" }) ∧
    validate { Config.zero with
        Accounts := [{ Name := "alice", Coins := ["1000token"], Mnemonic := "",
                       RPCAddress := "" }] }
      = some (Err.validation { Message := "validator is required" }) :=
  ⟨(validate_spec Config.zero).2.1 rfl,
   (validate_spec { Config.zero with
        Accounts := [{ Name := "alice", Coins := ["1000token"], Mnemonic := "",
                       RPCAddress := "" }] }).2.2.1 (by simp) rfl⟩

theorem AccountByName_loop_cases (name : String) (accounts : List Account) :
    (∃ before a after, accounts = before ++ a :: after ∧ a.Name = name ∧
        (∀ b ∈ before, b.Name ≠ name) ∧ AccountByName.loop name accounts = (a, true)) ∨
    ((∀ a ∈ accounts, a.Name ≠ name) ∧
        AccountByName.loop name accounts = (Account.zero, false)) := by
  induction accounts with
  | nil => exact Or.inr ⟨by simp, rfl⟩
  | cons x rest ih =>
    by_cases h : x.Name = name
    · exact Or.inl ⟨[], x, rest, rfl, h, by simp, by simp [AccountByName.loop, h]⟩
    · have hloop : AccountByName.loop name (x :: rest) = AccountByName.loop name rest := by
        simp [AccountByName.loop, h]
      rcases ih with ⟨before, a, after, he, ha, hb, hl⟩ | ⟨hall, hl⟩
      · refine Or.inl ⟨x :: before, a, after, by simp [he], ha, ?_, by rw [hloop, hl]⟩
        intro b hbm
        rcases List.mem_cons.1 hbm with e | m
        · exact e ▸ h
        · exact hb b m
      · refine Or.inr ⟨?_, by rw [hloop, hl]⟩
        intro a ham
        rcases List.mem_cons.1 ham with e | m
        · exact e ▸ h
        · exact hall a m

/-- C16: `AccountByName` reports `found = true` iff some account of the
configuration has the name; the account it then returns has the name and is
the first such account in list order; when no account has the name it returns
the zero-value account and `false`.  It is the first match of `List.find?`. -/
theorem AccountByName_spec (c : Config) (name : String) :
    ((c.AccountByName name).2 = true ↔ ∃ a ∈ c.Accounts, a.Name = name) ∧
    ((c.AccountByName name).2 = true →
      (c.AccountByName name).1.Name = name ∧
      ∃ before after, c.Accounts = before ++ (c.AccountByName name).1 :: after ∧
        ∀ b ∈ before, b.Name ≠ name) ∧
    ((∀ a ∈ c.Accounts, a.Name ≠ name) → c.AccountByName name = (Account.zero, false)) ∧
    c.AccountByName name
      = (match c.Accounts.find? (fun a => a.Name == name) with
        | some a => (a, true)
        | none => (Account.zero, false)) := by
  unfold Config.AccountByName
  refine ⟨?_, ?_, ?_, AccountByName_loop_eq name c.Accounts⟩
  · rcases AccountByName_loop_cases name c.Accounts with
      ⟨before, a, after, he, ha, _, hl⟩ | ⟨hall, hl⟩
    · rw [hl]
      refine ⟨fun _ => ⟨a, by simp [he], ha⟩, fun _ => rfl⟩
    · rw [hl]
      refine ⟨fun hf => by simp at hf, fun ⟨a, ham, ha⟩ => absurd ha (hall a ham)⟩
  · intro hf
    rcases AccountByName_loop_cases name c.Accounts with
      ⟨before, a, after, he, ha, hb, hl⟩ | ⟨_, hl⟩
    · rw [hl]
      exact ⟨ha, before, after, he, hb⟩
    · rw [hl] at hf
      simp at hf
  · intro hall
    rcases AccountByName_loop_cases name c.Accounts with
      ⟨before, a, after, he, ha, _, _⟩ | ⟨_, hl⟩
    · exact absurd ha (hall a (by simp [he]))
    · exact hl

theorem AccountByName_spec_witness :
    (Config.AccountByName
      { Config.zero with
        Accounts := [{ Name := "alice", Coins := ["1token"], Mnemonic := "", RPCAddress := "" },
                     { Name := "bob", Coins := ["2token"], Mnemonic := "", RPCAddress := "" },
                     { Name := "bob", Coins := ["3token"], Mnemonic := "", RPCAddress := "" }] }
      "bob").1.Name = "bob" ∧
    Config.AccountByName
      { Config.zero with
        Accounts := [{ Name := "alice", Coins := ["1token"], Mnemonic := "", RPCAddress := "" },
                     { Name := "bob", Coins := ["2token"], Mnemonic := "", RPCAddress := "" },
                     { Name := "bob", Coins := ["3token"], Mnemonic := "", RPCAddress := "" }] }
      "carol" = (Account.zero, false) :=
  ⟨((AccountByName_spec
      { Config.zero with
        Accounts := [{ Name := "alice", Coins := ["1token"], Mnemonic := "", RPCAddress := "" },
                     { Name := "bob", Coins := ["2token"], Mnemonic := "", RPCAddress := "" },
                     { Name := "bob", Coins := ["3token"], Mnemonic := "", RPCAddress := "" }] }
      "bob").2.1 (by decide)).1,
   (AccountByName_spec
      { Config.zero with
        Accounts := [{ Name := "alice", Coins := ["1token"], Mnemonic := "", RPCAddress := "" },
                     { Name := "bob", Coins := ["2token"], Mnemonic := "", RPCAddress := "" },
                     { Name := "bob", Coins := ["3token"], Mnemonic := "", RPCAddress := "" }] }
      "carol").2.2.1 (by decide)⟩

/-- C19: when the file at the path cannot be opened, `ParseFile` returns the
zero-value configuration with a nil error, whatever the error of the
operating system, the decoder and the merge are; the validation of `Parse` is
not applied, since it rejects the zero-value configuration for having no
account. -/
theorem ParseFile_swallows_open_failure {Reader : Type}
    (osOpen : String → Except String Reader)
    (decode : Reader → Config × Option String)
    (merge : Config → Config → Config × Option String)
    (path text : String) (h : osOpen path = Except.error text) :
    ParseFile osOpen decode merge path = (Config.zero, none) ∧
    (ParseFile osOpen decode merge path).2 ≠ validate (ParseFile osOpen decode merge path).1 ∧
    validate Config.zero
      = some (Err.validation { Message := "at least 1 account is needed" }) := by
  have hp : ParseFile osOpen decode merge path = (Config.zero, none) := by
    simp [ParseFile, h]
  refine ⟨hp, ?_, rfl⟩
  rw [hp]
  simp [validate, Config.zero]

theorem ParseFile_swallows_open_failure_witness :
    ParseFile (fun _ => (Except.error "no such file or directory" : Except String String))
      (fun _ => (Config.zero, some "EOF")) (fun conf _ => (conf, none)) "config.yml"
      = (Config.zero, none) :=
  (ParseFile_swallows_open_failure
    (fun _ => (Except.error "no such file or directory" : Except String String))
    (fun _ => (Config.zero, some "EOF")) (fun conf _ => (conf, none)) "config.yml"
    "no such file or directory" rfl).1

end conf

namespace cosmosfaucet

theorem foldl_options_runner {Runner : Type} (opts : List FaucetOpt) (f : Faucet Runner) :
    ((opts.map FaucetOpt.build).foldl (fun f apply => apply f) f).runner = f.runner := by
  induction opts generalizing f with
  | nil => rfl
  | cons o rest ih =>
    simp only [List.map_cons, List.foldl_cons]
    rw [ih]
    cases o <;> rfl

/-- C17: the faucet made by `New` does not hold the runner it is given: for
every runner type, every runner `ccr` and every list of the four exported
options its `runner` field is the zero value; with the runner of the builder
`appd` as `ccr` and no option, the field differs from `ccr`. -/
theorem New_runner_is_zero_value :
    (∀ (Runner : Type) [Inhabited Runner] (ccr : Runner) (opts : List FaucetOpt),
      (New ccr (opts.map FaucetOpt.build)).runner = default) ∧
    (New (chaincmd.New "appd" []) []).runner = chaincmd.ChainCmd.zero ∧
    (New (chaincmd.New "appd" []) []).runner ≠ chaincmd.New "appd" [] := by
  refine ⟨?_, rfl, by decide⟩
  intro Runner _ ccr opts
  unfold New
  rw [foldl_options_runner]

end cosmosfaucet

namespace strings

theorem splitChars_ne_nil (sep : Char) (l : List Char) : splitChars sep l ≠ [] := by
  induction l with
  | nil => simp [splitChars]
  | cons c cs ih =>
    unfold splitChars
    split
    · simp
    · split <;> simp

theorem splitChars_cons_ne (sep c : Char) (cs : List Char) (h : c ≠ sep) :
    splitChars sep (c :: cs)
      = (c :: (splitChars sep cs).headD []) :: (splitChars sep cs).tail := by
  obtain ⟨piece, pieces, hs⟩ := List.exists_cons_of_ne_nil (splitChars_ne_nil sep cs)
  rw [splitChars, if_neg h, hs]
  rfl

theorem splitChars_no_sep (sep : Char) (l : List Char) (h : sep ∉ l) :
    splitChars sep l = [l] := by
  induction l with
  | nil => rfl
  | cons c cs ih =>
    have hc : c ≠ sep := fun e => h (by simp [e])
    have hcs : sep ∉ cs := fun m => h (List.mem_cons_of_mem c m)
    rw [splitChars_cons_ne sep c cs hc]
    simp [ih hcs]

theorem splitChars_append_sep (sep : Char) (l rest : List Char) (h : sep ∉ l) :
    splitChars sep (l ++ sep :: rest) = l :: splitChars sep rest := by
  induction l with
  | nil => simp [splitChars]
  | cons c cs ih =>
    have hc : c ≠ sep := fun e => h (by simp [e])
    have hcs : sep ∉ cs := fun m => h (List.mem_cons_of_mem c m)
    rw [List.cons_append, splitChars_cons_ne sep c _ hc]
    simp [ih hcs]

theorem splitChars_length (sep : Char) (l : List Char) :
    (splitChars sep l).length = l.count sep + 1 := by
  induction l with
  | nil => rfl
  | cons c cs ih =>
    by_cases hc : c = sep
    · subst hc
      simp [splitChars, ih]
    · rw [splitChars_cons_ne sep c cs hc]
      have hne := splitChars_ne_nil sep cs
      have hlen : 0 < (splitChars sep cs).length := List.length_pos.2 hne
      simp only [List.length_cons, List.length_tail, List.count_cons, beq_iff_eq, hc, if_false]
      omega

end strings

namespace scaffolder

theorem owner_of_first_slash (front rest : List Char) (h : '/' ∉ front) :
    owner (String.mk (front ++ '/' :: rest))
      = Except.ok (String.mk ((strings.splitChars '/' rest).headD [])) := by
  obtain ⟨piece, pieces, hs⟩ :=
    List.exists_cons_of_ne_nil (strings.splitChars_ne_nil '/' rest)
  unfold owner strings.Split
  simp only [strings.splitChars_append_sep '/' front rest h, hs, List.map_cons,
    List.getElem?_cons_succ, List.getElem?_cons_zero, List.headD_cons]

theorem owner_no_slash (modulePath : String) (h : '/' ∉ modulePath.data) :
    owner modulePath = Except.error "runtime error: index out of range [1] with length 1" := by
  unfold owner strings.Split
  simp only [strings.splitChars_no_sep '/' modulePath.data h, List.map_cons, List.map_nil,
    List.length_singleton]
  rfl

/-- C21: `owner` returns a value exactly when the module path contains a `/`;
it is then the text between the first `/` and the second `/`, or the end of
the path when there is no second `/`, as for `github.com/foo/bar` with owner
`foo`; for a path without `/` the index 1 is out of range of the one-element
slice and `owner` ends in the run-time panic instead of returning. -/
theorem owner_spec (modulePath : String) :
    ((∃ part, owner modulePath = Except.ok part) ↔ '/' ∈ modulePath.data) ∧
    ('/' ∉ modulePath.data →
      owner modulePath
        = Except.error "runtime error: index out of range [1] with length 1") ∧
    (∀ front mid back : String, '/' ∉ front.data → '/' ∉ mid.data →
      (modulePath = front ++ "/" ++ mid ∨ modulePath = front ++ "/" ++ mid ++ "/" ++ back) →
      owner modulePath = Except.ok mid) ∧
    owner "github.com/foo/bar" = Except.ok "foo" := by
  refine ⟨?_, owner_no_slash modulePath, ?_, by rfl⟩
  · constructor
    · rintro ⟨part, hp⟩
      by_contra hno
      rw [owner_no_slash modulePath hno] at hp
      cases hp
    · intro hmem
      obtain ⟨front, rest, he, hfront⟩ := List.eq_append_cons_of_mem hmem
      have hm : modulePath = String.mk (front ++ '/' :: rest) := by
        rw [← he]
      rw [hm, owner_of_first_slash front rest hfront]
      exact ⟨_, rfl⟩
  · intro front mid back hfront hmid hshape
    have hslash : ("/" : String).data = ['/'] := rfl
    rcases hshape with h | h
    · have hm : modulePath = String.mk (front.data ++ '/' :: mid.data) := by
        rw [h]
        apply String.ext
        simp [String.data_append, hslash]
      rw [hm, owner_of_first_slash front.data mid.data hfront,
        strings.splitChars_no_sep '/' mid.data hmid]
      rfl
    · have hm : modulePath
          = String.mk (front.data ++ '/' :: (mid.data ++ '/' :: back.data)) := by
        rw [h]
        apply String.ext
        simp [String.data_append, hslash]
      rw [hm, owner_of_first_slash front.data _ hfront,
        strings.splitChars_append_sep '/' mid.data back.data hmid]
      rfl

theorem owner_spec_witness :
    owner "github.com/foo/bar" = Except.ok "foo" ∧
    owner "github.com/foo" = Except.ok "foo" ∧
    owner "starport"
      = Except.error "runtime error: index out of range [1] with length 1" :=
  ⟨(owner_spec "github.com/foo/bar").2.2.1 "github.com" "foo" "bar" (by decide) (by decide)
      (Or.inr (by decide)),
   (owner_spec "github.com/foo").2.2.1 "github.com" "foo" "" (by decide) (by decide)
      (Or.inl (by decide)),
   (owner_spec "starport").2.1 (by decide)⟩

end scaffolder
